import Mathlib

/-!
# Verification of the Clipper video-trimming utility

A shallow embedding of the algorithmic core of `clipper.py`: the time codec
(`time_to_seconds`, `validate_time_format`, `seconds_to_time`), the FFmpeg
command builder (`FFmpegCommandBuilder`, speed/atempo decomposition, filter
elision, stream mapping), the trim validation of `_validate_inputs`, and the
encode session's progress/cancellation/error-classification loop of
`run_ffmpeg_with_progress`.

Python strings are modelled as `List Char`; Python numbers as `ℚ`/`ℤ`/`ℕ`
(binary floating point is idealised as exact rational arithmetic; every
concrete value exercised below is exactly representable, and the divisions
performed by the code — by 2 and by 0.5 — are exact in binary floats).
-/

namespace Clipper

section

/- Batteries marks the rational-number field operations `@[irreducible]`,
which blocks `decide`-style evaluation of the executable definitions below
on concrete inputs; restore the default reducibility locally. -/
attribute [local semireducible] Rat.mul Rat.inv Rat.add Rat.sub

/-- Python strings are sequences of characters. -/
abbrev Str := List Char

/-- The ASCII single-quote character (used by the subtitles filter syntax). -/
def sq : Char := Char.ofNat 39

/-- ASCII whitespace recognised by Python's `str.strip()` / `int()` /
`float()` (the Unicode whitespace extension is not exercised here). -/
def isPyWs (c : Char) : Bool :=
  c = ' ' || c = '\t' || c = '\n' || c = '\r' || c = Char.ofNat 11 || c = Char.ofNat 12

/-- Python `str.strip()`: drop leading and trailing whitespace. -/
def trimWs (s : Str) : Str :=
  ((s.dropWhile isPyWs).reverse.dropWhile isPyWs).reverse

/-- ASCII decimal digit test (`\d` of the patterns used by the code,
restricted to ASCII as produced by ffmpeg/ffprobe). -/
def isDigitChar (c : Char) : Bool :=
  48 ≤ c.toNat && c.toNat ≤ 57

/-- Numeric value of a string of decimal digits (most significant first). -/
def digitsVal (s : Str) : ℕ :=
  s.foldl (fun a c => 10 * a + (c.toNat - 48)) 0

/-- Python `s.split(":")` for the single-character separator `":"`:
`"".split(":") = [""]`, separators delimit possibly-empty fields. -/
def splitOnColon : Str → List Str
  | [] => [[]]
  | c :: rest =>
    if c = ':' then [] :: splitOnColon rest
    else
      match splitOnColon rest with
      | [] => [[c]]
      | g :: gs => (c :: g) :: gs

/-- Python `int(str)` on an already-stripped string: optional single sign
followed by a nonempty run of digits; anything else raises `ValueError`
(modelled as `none`).  Underscore separators are not modelled. -/
def pyIntCore : Str → Option ℤ
  | [] => none
  | c :: ds =>
    if c = '+' then
      if ds ≠ [] ∧ ds.all isDigitChar then some (digitsVal ds) else none
    else if c = '-' then
      if ds ≠ [] ∧ ds.all isDigitChar then some (-(digitsVal ds : ℤ)) else none
    else
      if (c :: ds).all isDigitChar then some (digitsVal (c :: ds)) else none

/-- Python `int(str)`: strips whitespace, then parses a signed digit run. -/
def pyInt (s : Str) : Option ℤ :=
  pyIntCore (trimWs s)

/-- `time_to_seconds` (clipper.py:1342): lenient parse of `MM:SS` /
`HH:MM:SS`, returning `0` on any detected fault.  Faithful to the source:
the two-segment branch never checks the seconds field for negativity, and
the three-segment branch never checks the minutes field for negativity. -/
def time_to_seconds (s : Str) : ℚ :=
  match splitOnColon s with
  | [p1, p2] =>
    match pyInt p1, pyInt p2 with
    | some m, some sec =>
      if 60 ≤ sec then 0
      else if m < 0 then 0
      else ((m * 60 + sec : ℤ) : ℚ)
    | _, _ => 0
  | [p1, p2, p3] =>
    match pyInt p1, pyInt p2, pyInt p3 with
    | some h, some m, some sec =>
      if 60 ≤ sec then 0
      else if 60 ≤ m then 0
      else if h < 0 then 0
      else ((h * 3600 + m * 60 + sec : ℤ) : ℚ)
    | _, _, _ => 0
  | _ => 0

/-- `validate_time_format` (clipper.py:1379): strict variant, `true` when the
string is accepted and `false` when an error dialog would be shown.  Blank
(empty or whitespace-only) strings are accepted up front. -/
def validate_time_format (s : Str) : Bool :=
  if trimWs s = [] then true
  else
    match splitOnColon s with
    | [p1, p2] =>
      match pyInt p1, pyInt p2 with
      | some m, some sec =>
        if 60 ≤ sec then false
        else if m < 0 then false
        else true
      | _, _ => false
    | [p1, p2, p3] =>
      match pyInt p1, pyInt p2, pyInt p3 with
      | some h, some m, some sec =>
        if 60 ≤ sec then false
        else if 60 ≤ m then false
        else if h < 0 then false
        else true
      | _, _, _ => false
    | _ => false

/-- Decimal digit character for `n < 10`. -/
def digitChar : ℕ → Char
  | 0 => '0' | 1 => '1' | 2 => '2' | 3 => '3' | 4 => '4'
  | 5 => '5' | 6 => '6' | 7 => '7' | 8 => '8' | _ => '9'

/-- Decimal representation, structural recursion on a fuel bound (`fuel > n`
always suffices, since `n / 10 < n` for `n ≥ 10`). -/
def natDigsAux : ℕ → ℕ → Str
  | 0, _ => []
  | fuel + 1, n =>
    if n < 10 then [digitChar n]
    else natDigsAux fuel (n / 10) ++ [digitChar (n % 10)]

/-- Decimal representation of a natural number (Python `str(int)` for
nonnegative values). -/
def natDigs (n : ℕ) : Str := natDigsAux (n + 1) n

/-- Executable floor of a rational (`Rat.floor_eq_div`): the `⌊⌋` of
Mathlib's `FloorRing` instance does not reduce in the kernel, so the
definitions below use this computable form. -/
def ratFloor (q : ℚ) : ℤ := q.num / q.den

theorem ratFloor_eq (q : ℚ) : ratFloor q = ⌊q⌋ := Rat.floor_def.symm

/-- Python `str(int)` including the sign. -/
def intRepr (z : ℤ) : Str :=
  if z < 0 then '-' :: natDigs z.natAbs else natDigs z.natAbs

/-- Python `f"{z:02d}"`: pad a single nonnegative digit with a leading zero. -/
def pad2 (z : ℤ) : Str :=
  if 0 ≤ z ∧ z < 10 then '0' :: intRepr z else intRepr z

/-- `seconds_to_time` (clipper.py:1448): `minutes = int(seconds // 60)`,
`secs = int(seconds % 60)`, rendered `f"{minutes}:{secs:02d}"`.  Python's
`%` is a floor-mod whose result lies in `[0, 60)`, so `int()` truncation of
it is a floor. -/
def seconds_to_time (s : ℚ) : Str :=
  let minutes : ℤ := ratFloor (s / 60)
  let secs : ℤ := ratFloor s - 60 * ratFloor (s / 60)
  intRepr minutes ++ ':' :: pad2 secs

/-- A canonical `M:SS` string: minutes written as a plain decimal numeral,
a two-digit seconds field. -/
def mssStr (m s : ℕ) : Str :=
  natDigs m ++ ':' :: pad2 (s : ℤ)

/-- Trim-time validation, the `trim_enabled` block of `_validate_inputs`
(clipper.py:1517-1536): both fields must pass `validate_time_format`, then
`start_seconds >= end_seconds` and `end_seconds > self.video_duration` are
rejected.  A failed duration probe leaves `video_duration = 0`
(clipper.py:1216), passed here as the `videoDuration` argument. -/
def validateTrim (startStr endStr : Str) (videoDuration : ℚ) : Bool :=
  if validate_time_format startStr = false then false
  else if validate_time_format endStr = false then false
  else
    let startSeconds := time_to_seconds startStr
    let endSeconds := time_to_seconds endStr
    if endSeconds ≤ startSeconds then false
    else if videoDuration < endSeconds then false
    else true

/-! ### Lemmas about the string helpers -/

theorem splitOnColon_nocolon {l : Str} (h : ∀ c ∈ l, c ≠ ':') :
    splitOnColon l = [l] := by
  induction l with
  | nil => rfl
  | cons c rest ih =>
    have hc : c ≠ ':' := h c (List.mem_cons_self ..)
    have hr := ih fun x hx => h x (List.mem_cons_of_mem _ hx)
    simp [splitOnColon, hc, hr]

theorem splitOnColon_append {l : Str} (r : Str) (h : ∀ c ∈ l, c ≠ ':') :
    splitOnColon (l ++ ':' :: r) = l :: splitOnColon r := by
  induction l with
  | nil => simp [splitOnColon]
  | cons c rest ih =>
    have hc : c ≠ ':' := h c (List.mem_cons_self ..)
    have hr := ih fun x hx => h x (List.mem_cons_of_mem _ hx)
    simp [splitOnColon, hc, hr]

theorem natDigsAux_irrel :
    ∀ f1 f2 n, n < f1 → n < f2 → natDigsAux f1 n = natDigsAux f2 n := by
  intro f1
  induction f1 with
  | zero => intro f2 n h1 _; omega
  | succ f ih =>
    intro f2 n h1 h2
    cases f2 with
    | zero => omega
    | succ f2 =>
      by_cases h10 : n < 10
      · simp [natDigsAux, h10]
      · have hd : n / 10 < f := by omega
        have hd2 : n / 10 < f2 := by omega
        simp [natDigsAux, h10, ih f2 (n / 10) hd hd2]

theorem natDigs_eq (n : ℕ) :
    natDigs n = if n < 10 then [digitChar n]
                else natDigs (n / 10) ++ [digitChar (n % 10)] := by
  by_cases h : n < 10
  · simp [natDigs, natDigsAux, h]
  · have : natDigsAux n (n / 10) = natDigsAux (n / 10 + 1) (n / 10) :=
      natDigsAux_irrel n (n / 10 + 1) (n / 10) (by omega) (by omega)
    simp [natDigs, natDigsAux, h, this]

theorem digitChar_toNat {k : ℕ} (h : k < 10) : (digitChar k).toNat = 48 + k := by
  interval_cases k <;> rfl

theorem digitChar_digit {k : ℕ} (h : k < 10) : isDigitChar (digitChar k) = true := by
  interval_cases k <;> decide

theorem digitsVal_append_singleton (l : Str) (c : Char) :
    digitsVal (l ++ [c]) = 10 * digitsVal l + (c.toNat - 48) := by
  simp [digitsVal, List.foldl_append]

theorem natDigs_spec (n : ℕ) :
    (∀ c ∈ natDigs n, isDigitChar c = true) ∧
      digitsVal (natDigs n) = n ∧ natDigs n ≠ [] := by
  induction n using Nat.strong_induction_on with
  | _ n ih =>
    rw [natDigs_eq]
    by_cases h : n < 10
    · simp only [if_pos h]
      refine ⟨?_, ?_, by simp⟩
      · intro c hc
        simp only [List.mem_singleton] at hc
        subst hc
        exact digitChar_digit h
      · have : digitsVal [digitChar n] = (digitChar n).toNat - 48 := by
          simp [digitsVal]
        rw [this, digitChar_toNat h]
        omega
    · simp only [if_neg h]
      obtain ⟨ih1, ih2, ih3⟩ := ih (n / 10) (by omega)
      refine ⟨?_, ?_, by simp⟩
      · intro c hc
        rcases List.mem_append.1 hc with h1 | h2
        · exact ih1 c h1
        · simp only [List.mem_singleton] at h2
          subst h2
          exact digitChar_digit (by omega)
      · rw [digitsVal_append_singleton, ih2, digitChar_toNat (by omega)]
        omega

theorem digit_not_ws {c : Char} (h : isDigitChar c = true) : isPyWs c = false := by
  rw [Bool.eq_false_iff]
  intro hw
  simp only [isPyWs, Bool.or_eq_true, decide_eq_true_eq] at hw
  rcases hw with ((((rfl | rfl) | rfl) | rfl) | rfl) | rfl <;>
    exact absurd h (by decide)

theorem digit_ne_colon {c : Char} (h : isDigitChar c = true) : c ≠ ':' := by
  rintro rfl
  exact absurd h (by decide)

theorem dropWhile_no_ws {l : Str} (h : ∀ c ∈ l, isPyWs c = false) :
    l.dropWhile isPyWs = l := by
  cases l with
  | nil => rfl
  | cons c rest => simp [List.dropWhile_cons, h c (by simp)]

theorem trimWs_of_no_ws {l : Str} (h : ∀ c ∈ l, isPyWs c = false) :
    trimWs l = l := by
  unfold trimWs
  rw [dropWhile_no_ws h, dropWhile_no_ws (by simpa using h), List.reverse_reverse]

theorem all_ws_of_trimWs_eq_nil {s : Str} (h : trimWs s = []) :
    ∀ c ∈ s, isPyWs c = true := by
  unfold trimWs at h
  rw [List.reverse_eq_nil_iff, List.dropWhile_eq_nil_iff] at h
  intro c hc
  by_cases hcw : isPyWs c = true
  · exact hcw
  · exfalso
    have hsplit := List.takeWhile_append_dropWhile (p := isPyWs) (l := s)
    rw [← hsplit] at hc
    rcases List.mem_append.1 hc with h1 | h2
    · exact hcw (List.mem_takeWhile_imp h1)
    · exact hcw (h c (List.mem_reverse.2 h2))

theorem pyInt_natDigs (n : ℕ) : pyInt (natDigs n) = some (n : ℤ) := by
  obtain ⟨hd, hv, hne⟩ := natDigs_spec n
  unfold pyInt
  rw [trimWs_of_no_ws fun c hc => digit_not_ws (hd c hc)]
  obtain ⟨c, cs, hc⟩ := List.exists_cons_of_ne_nil hne
  rw [hc]
  have hcd : isDigitChar c = true := hd c (hc ▸ List.mem_cons_self ..)
  have hplus : ¬(c = '+') := by rintro rfl; exact absurd hcd (by decide)
  have hminus : ¬(c = '-') := by rintro rfl; exact absurd hcd (by decide)
  have hall : (c :: cs).all isDigitChar = true :=
    List.all_eq_true.2 fun x hx => hd x (hc ▸ hx)
  rw [pyIntCore, if_neg hplus, if_neg hminus, if_pos hall]
  rw [← hc, hv]

theorem digitsVal_cons_zero (l : Str) : digitsVal ('0' :: l) = digitsVal l := by
  simp [digitsVal]

theorem intRepr_ofNat (n : ℕ) : intRepr (n : ℤ) = natDigs n := by
  unfold intRepr
  rw [if_neg (by omega)]
  simp

theorem pyInt_pad2 {s : ℕ} (hs : s < 60) : pyInt (pad2 (s : ℤ)) = some (s : ℤ) := by
  unfold pad2
  by_cases h : s < 10
  · rw [if_pos (by constructor <;> omega), intRepr_ofNat]
    obtain ⟨hd, hv, hne⟩ := natDigs_spec s
    have hall : ∀ c ∈ '0' :: natDigs s, isDigitChar c = true := by
      intro c hc
      rcases List.mem_cons.1 hc with rfl | hmem
      · decide
      · exact hd c hmem
    unfold pyInt
    rw [trimWs_of_no_ws fun c hc => digit_not_ws (hall c hc)]
    rw [pyIntCore, if_neg (by decide), if_neg (by decide),
      if_pos (List.all_eq_true.2 hall)]
    rw [digitsVal_cons_zero, hv]
  · rw [if_neg (by omega), intRepr_ofNat]
    exact pyInt_natDigs s

theorem pad2_digits (s : ℕ) : ∀ c ∈ pad2 (s : ℤ), isDigitChar c = true := by
  unfold pad2
  split_ifs with h
  · rw [intRepr_ofNat]
    intro c hc
    rcases List.mem_cons.1 hc with rfl | hmem
    · decide
    · exact (natDigs_spec s).1 c hmem
  · rw [intRepr_ofNat]
    exact (natDigs_spec s).1

theorem splitOnColon_mss (m s : ℕ) :
    splitOnColon (mssStr m s) = [natDigs m, pad2 (s : ℤ)] := by
  unfold mssStr
  rw [splitOnColon_append _ fun c hc => digit_ne_colon ((natDigs_spec m).1 c hc),
    splitOnColon_nocolon fun c hc => digit_ne_colon (pad2_digits s c hc)]

theorem time_to_seconds_mss {m s : ℕ} (hs : s < 60) :
    time_to_seconds (mssStr m s) = ((m * 60 + s : ℤ) : ℚ) := by
  unfold time_to_seconds
  rw [splitOnColon_mss]
  simp only [pyInt_natDigs, pyInt_pad2 hs]
  rw [if_neg (by omega), if_neg (by omega)]

theorem ratFloor_intCast (z : ℤ) : ratFloor ((z : ℚ)) = z := by
  rw [ratFloor_eq, Int.floor_intCast]

theorem ratFloor_div60 (m s : ℕ) (hs : s < 60) :
    ratFloor (((m * 60 + s : ℤ) : ℚ) / 60) = (m : ℤ) := by
  rw [ratFloor_eq, Int.floor_eq_iff]
  constructor
  · rw [le_div_iff₀ (by norm_num : (0:ℚ) < 60)]
    push_cast
    have : (0:ℚ) ≤ (s:ℚ) := Nat.cast_nonneg s
    linarith
  · rw [div_lt_iff₀ (by norm_num : (0:ℚ) < 60)]
    push_cast
    have : (s:ℚ) < 60 := by exact_mod_cast hs
    linarith

/-- **C6 counterexample** — `"05:30"` is a parser-valid `M:SS` string (the
grammar tolerates 1-2 digit minutes) with `0 ≤ seconds < 60`, but the
round-trip returns `"5:30"`: `seconds_to_time` renders minutes without a
leading zero, so `format(parse(s)) ≠ s` for non-canonical minute fields. -/
theorem roundtrip_cex :
    validate_time_format ("05:30".toList) = true ∧
      time_to_seconds ("05:30".toList) = 330 ∧
      seconds_to_time (time_to_seconds ("05:30".toList)) = "5:30".toList ∧
      ("5:30".toList : Str) ≠ "05:30".toList := by decide

/-- **C6 (amended)** — For every *canonical* `M:SS` time string (minutes
rendered as a plain decimal numeral without a superfluous leading zero, an
exactly-two-digit seconds field with `0 ≤ seconds < 60`), formatting the
parsed value returns the original string:
`seconds_to_time (time_to_seconds s) = s`. -/
theorem format_parse_roundtrip (m s : ℕ) (hs : s < 60) :
    seconds_to_time (time_to_seconds (mssStr m s)) = mssStr m s := by
  rw [time_to_seconds_mss hs]
  show intRepr (ratFloor (((m * 60 + s : ℤ) : ℚ) / 60)) ++
      ':' :: pad2 (ratFloor ((m * 60 + s : ℤ) : ℚ) -
        60 * ratFloor (((m * 60 + s : ℤ) : ℚ) / 60)) = mssStr m s
  rw [ratFloor_div60 m s hs, ratFloor_intCast]
  have hsec : (m * 60 + s : ℤ) - 60 * (m : ℤ) = (s : ℤ) := by ring
  rw [hsec, intRepr_ofNat]
  rfl

/-- Witness for C6 at the concrete string `"1:30"`. -/
theorem format_parse_roundtrip_witness :
    30 < 60 ∧ mssStr 1 30 = "1:30".toList ∧
      seconds_to_time (time_to_seconds (mssStr 1 30)) = mssStr 1 30 :=
  ⟨by omega, by decide, format_parse_roundtrip 1 30 (by omega)⟩

/-- **C10** — The strict time validator accepts every empty or
whitespace-only string (no fault is raised for a blank time field), and the
lenient parse of such a string yields `0`. -/
theorem blank_time_accepted (s : Str) (h : trimWs s = []) :
    validate_time_format s = true ∧ time_to_seconds s = 0 := by
  have hall := all_ws_of_trimWs_eq_nil h
  have hsp : splitOnColon s = [s] := splitOnColon_nocolon fun c hc => by
    have hw := hall c hc
    rintro rfl
    exact absurd hw (by decide)
  constructor
  · unfold validate_time_format
    rw [if_pos h]
  · unfold time_to_seconds
    rw [hsp]

/-- Witness for C10 at the whitespace-only string `"  "`. -/
theorem blank_time_accepted_witness :
    trimWs ("  ".toList) = [] ∧ validate_time_format ("  ".toList) = true ∧
      time_to_seconds ("  ".toList) = 0 :=
  ⟨by decide, blank_time_accepted ("  ".toList) (by decide)⟩

/-- **C7 counterexample** — the claim asserts that an unknown probed duration
(recorded as `0`) relaxes the end-versus-duration check; but the code rejects
the trim `0:00 → 0:01` when `video_duration = 0`, because
`end_seconds > self.video_duration` is tested unconditionally. -/
theorem trim_validation_cex :
    validateTrim ("0:00".toList) ("0:01".toList) 0 = false := by decide

/-- **C7 (amended)** — Pre-build trim validation succeeds exactly when both
time strings pass format validation, `start < end`, and `end ≤` the probed
duration, where a failed probe records duration `0`; the duration check is
never relaxed, so with an unknown (zero) duration every trim whose end is
positive is rejected. -/
theorem trim_validation_amended (s e : Str) (d : ℚ) :
    validateTrim s e d = true ↔
      (validate_time_format s = true ∧ validate_time_format e = true ∧
        time_to_seconds s < time_to_seconds e ∧ time_to_seconds e ≤ d) := by
  have hdef : validateTrim s e d =
      (if validate_time_format s = false then false
       else if validate_time_format e = false then false
       else if time_to_seconds e ≤ time_to_seconds s then false
       else if d < time_to_seconds e then false
       else true) := rfl
  rw [hdef]
  constructor
  · intro h
    by_cases h1 : validate_time_format s = false
    · rw [if_pos h1] at h; exact absurd h (by simp)
    · rw [if_neg h1] at h
      by_cases h2 : validate_time_format e = false
      · rw [if_pos h2] at h; exact absurd h (by simp)
      · rw [if_neg h2] at h
        by_cases h3 : time_to_seconds e ≤ time_to_seconds s
        · rw [if_pos h3] at h; exact absurd h (by simp)
        · rw [if_neg h3] at h
          by_cases h4 : d < time_to_seconds e
          · rw [if_pos h4] at h; exact absurd h (by simp)
          · exact ⟨by simpa using h1, by simpa using h2,
              lt_of_not_le h3, le_of_not_lt h4⟩
  · rintro ⟨hv1, hv2, hlt, hle⟩
    rw [if_neg (by simp [hv1]), if_neg (by simp [hv2]),
      if_neg (not_le.2 hlt), if_neg (not_lt.2 hle)]

/-- **C5 counterexample** — the claim asserts that *any* negative component
makes both variants fault, but a negative seconds field in the two-segment
form is accepted by both: the strict validator returns `true` for `"0:-5"`
and the lenient parse returns `-5`, not `0`. -/
theorem time_parse_negative_cex :
    validate_time_format ("0:-5".toList) = true ∧
      time_to_seconds ("0:-5".toList) = -5 ∧
      time_to_seconds ("1:-2:03".toList) = 3483 ∧
      validate_time_format ("1:-2:03".toList) = true := by decide

/-- **C5 (amended)** — For non-blank input, both time-parse variants fault
(the lenient variant returns `0`, the strict variant reports a validation
fault) on: wrong segment count, a non-integer segment, seconds ≥ 60 in
either form, minutes ≥ 60 or negative hours when an hour segment is present,
and negative minutes in the two-segment form.  (Negative seconds, and
negative minutes when an hour segment is present, are *not* rejected.)
`"1:60"`, `"-1:00"`, `"1:2:3:4"` are rejected; `"90:00"`, `"1:30:00"` are
accepted. -/
theorem time_parse_faults :
    (∀ s : Str, trimWs s ≠ [] → (splitOnColon s).length ≠ 2 →
        (splitOnColon s).length ≠ 3 →
        time_to_seconds s = 0 ∧ validate_time_format s = false)
  ∧ (∀ s p1 p2, trimWs s ≠ [] → splitOnColon s = [p1, p2] →
        pyInt p1 = none ∨ pyInt p2 = none →
        time_to_seconds s = 0 ∧ validate_time_format s = false)
  ∧ (∀ s p1 p2 p3, trimWs s ≠ [] → splitOnColon s = [p1, p2, p3] →
        pyInt p1 = none ∨ pyInt p2 = none ∨ pyInt p3 = none →
        time_to_seconds s = 0 ∧ validate_time_format s = false)
  ∧ (∀ s p1 p2 m sec, trimWs s ≠ [] → splitOnColon s = [p1, p2] →
        pyInt p1 = some m → pyInt p2 = some sec → 60 ≤ sec ∨ m < 0 →
        time_to_seconds s = 0 ∧ validate_time_format s = false)
  ∧ (∀ s p1 p2 p3 h m sec, trimWs s ≠ [] → splitOnColon s = [p1, p2, p3] →
        pyInt p1 = some h → pyInt p2 = some m → pyInt p3 = some sec →
        60 ≤ sec ∨ 60 ≤ m ∨ h < 0 →
        time_to_seconds s = 0 ∧ validate_time_format s = false)
  ∧ (time_to_seconds ("1:60".toList) = 0 ∧
      validate_time_format ("1:60".toList) = false)
  ∧ (time_to_seconds ("-1:00".toList) = 0 ∧
      validate_time_format ("-1:00".toList) = false)
  ∧ (time_to_seconds ("1:2:3:4".toList) = 0 ∧
      validate_time_format ("1:2:3:4".toList) = false)
  ∧ (time_to_seconds ("90:00".toList) = 5400 ∧
      validate_time_format ("90:00".toList) = true)
  ∧ (time_to_seconds ("1:30:00".toList) = 5400 ∧
      validate_time_format ("1:30:00".toList) = true) := by
  refine ⟨?_, ?_, ?_, ?_, ?_, by decide, by decide, by decide, by decide, by decide⟩
  · intro s hb hl2 hl3
    constructor
    · unfold time_to_seconds
      rcases hsp : splitOnColon s with _ | ⟨a, _ | ⟨b, _ | ⟨c, d⟩⟩⟩ <;>
        simp_all [hsp]
    · unfold validate_time_format
      rw [if_neg hb]
      rcases hsp : splitOnColon s with _ | ⟨a, _ | ⟨b, _ | ⟨c, d⟩⟩⟩ <;>
        simp_all [hsp]
  · intro s p1 p2 hb hsp hnone
    constructor
    · unfold time_to_seconds
      rw [hsp]
      rcases hnone with h | h <;> rcases hq : pyInt p1 <;> rcases hq2 : pyInt p2 <;>
        simp_all
    · unfold validate_time_format
      rw [if_neg hb, hsp]
      rcases hnone with h | h <;> rcases hq : pyInt p1 <;> rcases hq2 : pyInt p2 <;>
        simp_all
  · intro s p1 p2 p3 hb hsp hnone
    constructor
    · unfold time_to_seconds
      rw [hsp]
      rcases hnone with h | h | h <;> rcases hq : pyInt p1 <;>
        rcases hq2 : pyInt p2 <;> rcases hq3 : pyInt p3 <;> simp_all
    · unfold validate_time_format
      rw [if_neg hb, hsp]
      rcases hnone with h | h | h <;> rcases hq : pyInt p1 <;>
        rcases hq2 : pyInt p2 <;> rcases hq3 : pyInt p3 <;> simp_all
  · intro s p1 p2 m sec hb hsp hm hsec hbad
    constructor
    · unfold time_to_seconds
      rw [hsp]
      simp only [hm, hsec]
      split_ifs with h1 h2 <;> first | rfl | omega
    · unfold validate_time_format
      rw [if_neg hb, hsp]
      simp only [hm, hsec]
      split_ifs with h1 h2 <;> first | rfl | omega
  · intro s p1 p2 p3 h m sec hb hsp hh hm hsec hbad
    constructor
    · unfold time_to_seconds
      rw [hsp]
      simp only [hh, hm, hsec]
      split_ifs with h1 h2 h3 <;> first | rfl | omega
    · unfold validate_time_format
      rw [if_neg hb, hsp]
      simp only [hh, hm, hsec]
      split_ifs with h1 h2 h3 <;> first | rfl | omega

/-- Witness for C5 at the concrete rejected input `"1:60"` (seconds ≥ 60). -/
theorem time_parse_faults_witness :
    time_to_seconds ("1:60".toList) = 0 ∧
      validate_time_format ("1:60".toList) = false :=
  (time_parse_faults.2.2.2.1) ("1:60".toList) (['1'] : Str) (['6', '0'] : Str)
    1 60 (by decide) (by decide) (by decide) (by decide) (Or.inl (by decide))

/-! ### Encode session: progress parsing, cancellation, error classification
(`run_ffmpeg_with_progress`, clipper.py:1868-1968; `cancel_processing`,
clipper.py:1970-1992) -/

/-- Greedy run of ASCII digits (`\d+`). -/
def takeDigits (s : Str) : Str := s.takeWhile isDigitChar

def dropDigits (s : Str) : Str := s.dropWhile isDigitChar

/-- Expect one literal character, yielding the rest of the input. -/
def expectChar (c : Char) : Str → Option Str
  | [] => none
  | x :: r => if x = c then some r else none

/-- Parse the tail of the progress marker immediately after the literal
`time=`, per the regex `time=(\d+):(\d+):(\d+\.\d+)` (clipper.py:1877); on a
match the elapsed time is `int(h)*3600 + int(m)*60 + float(s)`
(clipper.py:1903-1904).  Greedy `\d+` followed by a required literal is
equivalent to a maximal digit run followed by that literal. -/
def parseTimeAt (s : Str) : Option ℚ :=
  if takeDigits s = [] then none else
  match expectChar ':' (dropDigits s) with
  | none => none
  | some s2 =>
    if takeDigits s2 = [] then none else
    match expectChar ':' (dropDigits s2) with
    | none => none
    | some s3 =>
      if takeDigits s3 = [] then none else
      match expectChar '.' (dropDigits s3) with
      | none => none
      | some s4 =>
        if takeDigits s4 = [] then none else
        some ((digitsVal (takeDigits s) : ℚ) * 3600 +
          (digitsVal (takeDigits s2) : ℚ) * 60 +
          (digitsVal (takeDigits s3) : ℚ) +
          (digitsVal (takeDigits s4) : ℚ) / (10 : ℚ) ^ (takeDigits s4).length)

/-- `re.search` of the progress pattern over a line: the leftmost position
where the whole pattern matches (every match starts at an occurrence of the
literal `time=`). -/
def findTimeMarker : Str → Option ℚ
  | [] => none
  | c :: rest =>
    if ("time=".toList).isPrefixOf (c :: rest) then
      match parseTimeAt ((c :: rest).drop 5) with
      | some v => some v
      | none => findTimeMarker rest
    else findTimeMarker rest

/-- Python `int(float)`: truncation toward zero. -/
def pyTrunc (q : ℚ) : ℤ :=
  if q < 0 then -ratFloor (-q) else ratFloor q

/-- clipper.py:1905-1906: `percent = int((current / total) * 100)`,
`percent = min(percent, 100)`. -/
def percentOf (total t : ℚ) : ℤ :=
  min (pyTrunc (t / total * 100)) 100

/-- `[line.strip() for line in ffmpeg_stderr if line.strip()]`
(clipper.py:1924). -/
def error_lines (raw : List Str) : List Str :=
  (raw.map trimWs).filter fun l => l ≠ []

def lowerStr (s : Str) : Str := s.map Char.toLower

def errorKeywords : List Str :=
  ["error".toList, "failed".toList, "invalid".toList, "not found".toList]

/-- `any(keyword in line.lower() for keyword in [...])` (clipper.py:1940-1943). -/
def isRelevantLine (l : Str) : Bool :=
  errorKeywords.any fun k => decide (k <:+: lowerStr l)

/-- Python `l[-n:]`. -/
def pyLastN {α : Type} (n : ℕ) (l : List α) : List α :=
  l.drop (l.length - n)

/-- The known subtitle-library incompatibility signature (clipper.py:1927). -/
def libassSignature : Str :=
  "libass wasn".toList ++ sq :: "t built with ASS_FEATURE_WRAP_UNICODE support".toList

def hasLibassError (els : List Str) : Bool :=
  els.any fun l => decide (libassSignature <:+: l)

/-- The distinct actionable message shown for the libass incompatibility
(clipper.py:1931-1935; text abridged — no claim inspects it). -/
def libassUserMsg : Str :=
  "FFmpeg/libass does not support Unicode subtitle line wrapping on your system.".toList

/-- The keyword scan of clipper.py:1938-1948: walk the last 10 non-empty
stripped lines in reverse collecting keyword lines, report the last 3
entries of that reversed accumulation, or fall back to the last 20 lines
when none matched.  (The lines are joined with newlines into the dialog
text; the selection and order is modelled here.) -/
def errorReportLines (raw : List Str) : List Str :=
  let els := error_lines raw
  let relevant := ((pyLastN 10 els).reverse).filter isRelevantLine
  if relevant ≠ [] then pyLastN 3 relevant else pyLastN 20 els

/-- Non-zero-exit message selection (clipper.py:1923-1948). -/
def failureMessage (raw : List Str) : List Str :=
  if hasLibassError (error_lines raw) then [libassUserMsg]
  else errorReportLines raw

/-- Terminal outcome of one encode job as reported to
`processing_complete`. -/
inductive Outcome
  | completed
  | failed (msg : List Str)
  | cancelled
  deriving DecidableEq

/-- clipper.py:1916-1954: exit code 0 reports success, otherwise the
classified failure message. -/
def classifyExit (raw : List Str) (exitCode : ℤ) : Outcome :=
  if exitCode = 0 then Outcome.completed else Outcome.failed (failureMessage raw)

structure SessionResult where
  emitted : List ℤ
  outcome : Outcome
  consumed : ℕ
  terminated : Bool
  waited : Bool
  deriving DecidableEq

/-- The output-reading loop (clipper.py:1884-1914).  Each iteration first
reads `cancel_requested` (`flags i` is the value observed at the `i`-th
top-of-loop check); on cancel the subprocess is terminated and the loop
returns immediately without draining or waiting.  Otherwise one line is
read; an empty read means EOF, after which the remaining output is drained
and the process waited on for its exit code. -/
def sessionGo (total : ℚ) (flags : ℕ → Bool) (exitCode : ℤ) (drained : List Str) :
    ℕ → ℤ → List ℤ → List Str → List Str → SessionResult
  | i, lastPercent, emitted, readSoFar, lines =>
    if flags i then ⟨emitted, Outcome.cancelled, i, true, false⟩
    else
      match lines with
      | [] => ⟨emitted, classifyExit (readSoFar ++ drained) exitCode, i, false, true⟩
      | l :: ls =>
        if l = [] then
          ⟨emitted, classifyExit (readSoFar ++ drained) exitCode, i, false, true⟩
        else
          match findTimeMarker l with
          | none =>
            sessionGo total flags exitCode drained (i + 1) lastPercent emitted
              (readSoFar ++ [l]) ls
          | some t =>
            if percentOf total t ≠ lastPercent then
              sessionGo total flags exitCode drained (i + 1) (percentOf total t)
                (emitted ++ [percentOf total t]) (readSoFar ++ [l]) ls
            else
              sessionGo total flags exitCode drained (i + 1) lastPercent emitted
                (readSoFar ++ [l]) ls

/-- One run of the output-reading loop of `run_ffmpeg_with_progress`
(clipper.py:1877-1954).  `duration` is the progress denominator before the
nominal-minimum substitution of clipper.py:1881-1882; `lines` are the lines
`readline` yields before EOF (a `readline` mid-stream never returns the
empty string); `drained` is the remaining buffered output read after the
loop; `exitCode` is the process exit code. -/
def run_ffmpeg_session (duration : ℚ) (flags : ℕ → Bool) (lines drained : List Str)
    (exitCode : ℤ) : SessionResult :=
  let total := if duration ≤ 0 then 1 else duration
  sessionGo total flags exitCode drained 0 0 [] [] lines

/-- The progress updates emitted by an uncancelled run. -/
def runProgress (duration : ℚ) (lines : List Str) : List ℤ :=
  (run_ffmpeg_session duration (fun _ => false) lines [] 0).emitted

/-- Modelled from the spec's words, for comparison with the code: the percent
formula "floor(elapsed / total_duration * 100), clamped to [0,100]", with "a
nominal total duration of 1 second substituted whenever the known total
duration is 0 or negative". -/
def specPercent (duration t : ℚ) : ℤ :=
  min 100 (max 0 ⌊t / (if duration ≤ 0 then 1 else duration) * 100⌋)

/-- Modelled from the spec's words: emit only values that differ from the
last reported one. -/
def specDedup : ℤ → List ℤ → List ℤ
  | _, [] => []
  | last, p :: ps => if p = last then specDedup last ps else p :: specDedup p ps

/-- Modelled from the spec's words: the progress updates are the
deduplicated clamped percentages of the time markers found in the lines. -/
def specProgress (duration : ℚ) (lines : List Str) : List ℤ :=
  specDedup 0
    (((lines.takeWhile fun l => l ≠ []).filterMap findTimeMarker).map
      (specPercent duration))

theorem parseTimeAt_nonneg {s : Str} {t : ℚ} (h : parseTimeAt s = some t) :
    0 ≤ t := by
  unfold parseTimeAt at h
  split at h
  · exact absurd h (by simp)
  · split at h
    · exact absurd h (by simp)
    · split at h
      · exact absurd h (by simp)
      · split at h
        · exact absurd h (by simp)
        · split at h
          · exact absurd h (by simp)
          · split at h
            · exact absurd h (by simp)
            · split at h
              · exact absurd h (by simp)
              · rw [Option.some_inj] at h
                subst h
                positivity

theorem findTimeMarker_nonneg :
    ∀ {l : Str} {t : ℚ}, findTimeMarker l = some t → 0 ≤ t := by
  intro l
  induction l with
  | nil => intro t h; exact absurd h (by simp [findTimeMarker])
  | cons c rest ih =>
    intro t h
    unfold findTimeMarker at h
    split at h
    · split at h
      next heq =>
        rw [Option.some_inj] at h
        subst h
        exact parseTimeAt_nonneg heq
      next => exact ih h
    · exact ih h

theorem percentOf_eq_spec {duration t : ℚ} (ht : 0 ≤ t) :
    percentOf (if duration ≤ 0 then 1 else duration) t = specPercent duration t := by
  unfold percentOf specPercent pyTrunc
  have htot : (0:ℚ) < (if duration ≤ 0 then 1 else duration) := by
    split_ifs with h
    · norm_num
    · exact lt_of_not_ge h
  have hq : (0:ℚ) ≤ t / (if duration ≤ 0 then 1 else duration) * 100 := by positivity
  rw [if_neg (not_lt.2 hq), ratFloor_eq,
    max_eq_right (Int.floor_nonneg.2 hq), min_comm]

theorem sessionGo_emitted (total : ℚ) (ec : ℤ) (drained : List Str) :
    ∀ (lines : List Str) (i : ℕ) (lastP : ℤ) (em : List ℤ) (readSoFar : List Str),
      (sessionGo total (fun _ => false) ec drained i lastP em readSoFar lines).emitted
        = em ++ specDedup lastP
            (((lines.takeWhile fun l => l ≠ []).filterMap findTimeMarker).map
              (percentOf total)) := by
  intro lines
  induction lines with
  | nil => intro i lastP em readSoFar; simp [sessionGo, specDedup]
  | cons l ls ih =>
    intro i lastP em readSoFar
    by_cases hl : l = []
    · subst hl
      simp [sessionGo, specDedup]
    · rcases hm : findTimeMarker l with _ | t
      · simp [sessionGo, hl, hm, ih, List.takeWhile_cons, List.filterMap_cons]
      · by_cases hp : percentOf total t = lastP
        · simp [sessionGo, hl, hm, hp, ih, specDedup, List.takeWhile_cons,
            List.filterMap_cons]
        · simp [sessionGo, hl, hm, hp, ih, specDedup, List.takeWhile_cons,
            List.filterMap_cons]

/-- **C1** — Each diagnostic line's `time=HH:MM:SS.ff` marker yields
`percent = floor(elapsed / total_duration * 100)` clamped to `[0,100]`, with
a nominal total duration of 1 substituted when the known total duration is 0
or negative, and an update is emitted only when the percent differs from the
last reported one; feeding `time=00:01:30.00` twice against a 180-second
total reports `50` exactly once. -/
theorem progress_reporting_spec :
    (∀ (duration : ℚ) (lines : List Str),
        runProgress duration lines = specProgress duration lines)
  ∧ runProgress 180
      ["a time=00:01:30.00 b".toList, "a time=00:01:30.00 b".toList] = [50] := by
  constructor
  · intro duration lines
    unfold runProgress run_ffmpeg_session
    rw [sessionGo_emitted]
    unfold specProgress
    rw [List.nil_append]
    congr 1
    apply List.map_congr_left
    intro t htmem
    obtain ⟨l, _, hl⟩ := List.mem_filterMap.1 htmem
    exact percentOf_eq_spec (findTimeMarker_nonneg hl)
  · decide

theorem sessionGo_cancel (total : ℚ) (flags : ℕ → Bool) (ec : ℤ)
    (drained : List Str) :
    ∀ (lines : List Str) (i : ℕ) (lastP : ℤ) (em : List ℤ) (readSoFar : List Str),
      [] ∉ lines →
      (∃ k, k ≤ lines.length ∧ flags (i + k) = true) →
      (sessionGo total flags ec drained i lastP em readSoFar lines).outcome
          = Outcome.cancelled ∧
        (sessionGo total flags ec drained i lastP em readSoFar lines).terminated
          = true ∧
        (sessionGo total flags ec drained i lastP em readSoFar lines).waited
          = false := by
  intro lines
  induction lines with
  | nil =>
    intro i lastP em readSoFar _ hreq
    obtain ⟨k, hk, hf⟩ := hreq
    have hk0 : k = 0 := by simpa using hk
    subst hk0
    rw [Nat.add_zero] at hf
    simp [sessionGo, hf]
  | cons l ls ih =>
    intro i lastP em readSoFar hne hreq
    by_cases hf : flags i = true
    · simp [sessionGo, hf]
    · obtain ⟨k, hk, hfk⟩ := hreq
      have hk0 : k ≠ 0 := by
        rintro rfl
        rw [Nat.add_zero] at hfk
        exact hf hfk
      obtain ⟨k', rfl⟩ := Nat.exists_eq_succ_of_ne_zero hk0
      have hreq' : ∃ k, k ≤ ls.length ∧ flags (i + 1 + k) = true := by
        refine ⟨k', by simpa using hk, ?_⟩
        rw [show i + 1 + k' = i + (k' + 1) by omega]
        exact hfk
      have hl : l ≠ [] := fun h => hne (h ▸ List.mem_cons_self ..)
      have hne' : [] ∉ ls := fun h => hne (List.mem_cons_of_mem _ h)
      rcases hm : findTimeMarker l with _ | t
      · simpa [sessionGo, hf, hl, hm] using ih (i + 1) lastP em _ hne' hreq'
      · by_cases hp : percentOf total t = lastP
        · simpa [sessionGo, hf, hl, hm, hp] using ih (i + 1) lastP em _ hne' hreq'
        · simpa [sessionGo, hf, hl, hm, hp] using
            ih (i + 1) (percentOf total t) (em ++ [percentOf total t]) _ hne' hreq'

/-- **C9** — The cancellation flag is checked at the top of every iteration
of the output-reading loop; whenever the cancel request is observable at any
such check (at the latest the one following the final line, before the EOF
read), the subprocess receives a termination signal, the session reports a
cancelled outcome without draining or waiting for natural process exit, and
a `Completed` outcome is never reported. -/
theorem cancellation_cancels (duration : ℚ) (flags : ℕ → Bool)
    (lines drained : List Str) (exitCode : ℤ)
    (hne : [] ∉ lines)
    (hreq : ∃ i, i ≤ lines.length ∧ flags i = true) :
    (run_ffmpeg_session duration flags lines drained exitCode).outcome
        = Outcome.cancelled ∧
      (run_ffmpeg_session duration flags lines drained exitCode).terminated
        = true ∧
      (run_ffmpeg_session duration flags lines drained exitCode).waited
        = false ∧
      (run_ffmpeg_session duration flags lines drained exitCode).outcome
        ≠ Outcome.completed := by
  obtain ⟨h1, h2, h3⟩ :=
    sessionGo_cancel (if duration ≤ 0 then 1 else duration) flags exitCode drained
      lines 0 0 [] [] hne (by simpa using hreq)
  refine ⟨h1, h2, h3, ?_⟩
  unfold run_ffmpeg_session
  rw [h1]
  simp

/-- Witness for C9: a cancel requested after the first line is read yields a
cancelled, terminated, unwaited session. -/
theorem cancellation_cancels_witness :
    (run_ffmpeg_session 10 (fun i => decide (1 ≤ i)) ["x".toList] [] 0).outcome
        = Outcome.cancelled ∧
      (run_ffmpeg_session 10 (fun i => decide (1 ≤ i)) ["x".toList] [] 0).terminated
        = true ∧
      (run_ffmpeg_session 10 (fun i => decide (1 ≤ i)) ["x".toList] [] 0).waited
        = false ∧
      (run_ffmpeg_session 10 (fun i => decide (1 ≤ i)) ["x".toList] [] 0).outcome
        ≠ Outcome.completed :=
  cancellation_cancels 10 (fun i => decide (1 ≤ i)) (["x".toList]) [] 0
    (by decide) ⟨1, by decide, by decide⟩

/-- A diagnostic tail with four keyword lines: more matches than the three
reported. -/
def fourErrorLines : List Str :=
  ["error one\n".toList, "error two\n".toList,
   "error three\n".toList, "error four\n".toList]

/-- **C8 counterexample** — with four matching lines in the 10-line window,
the scan reports the three *oldest* matches and drops the most recent
matching line (`error four`), contradicting "up to the 3 most recent
matching lines": `relevant_errors` accumulates newest-first, and
`relevant_errors[-3:]` then keeps the entries appended last, which are the
oldest. -/
theorem error_tail_cex :
    errorReportLines fourErrorLines =
        ["error three".toList, "error two".toList, "error one".toList] ∧
      "error four".toList ∉ errorReportLines fourErrorLines := by decide

/-- **C8 (amended)** — For a non-zero-exit run whose diagnostics do not
contain the libass incompatibility signature, the reported error text is
built by scanning the last 10 non-empty stripped lines in reverse for lines
containing `error`/`failed`/`invalid`/`not found`, reporting up to 3
matching lines — the *oldest* three of the window in reverse-chronological
order, not the most recent three — or falling back to the last 20 non-empty
lines when no line matches. -/
theorem error_tail_amended :
    (∀ raw : List Str,
        errorReportLines raw =
          if (pyLastN 10 (error_lines raw)).filter isRelevantLine = []
          then pyLastN 20 (error_lines raw)
          else (((pyLastN 10 (error_lines raw)).filter isRelevantLine).take 3).reverse)
  ∧ (∀ (raw : List Str) (ec : ℤ), ec ≠ 0 →
        hasLibassError (error_lines raw) = false →
        classifyExit raw ec = Outcome.failed (errorReportLines raw)) := by
  constructor
  · intro raw
    have hdef : errorReportLines raw =
        (if ((pyLastN 10 (error_lines raw)).reverse.filter isRelevantLine) ≠ []
         then pyLastN 3 ((pyLastN 10 (error_lines raw)).reverse.filter isRelevantLine)
         else pyLastN 20 (error_lines raw)) := rfl
    rw [hdef, List.filter_reverse]
    by_cases hrel : (pyLastN 10 (error_lines raw)).filter isRelevantLine = []
    · rw [hrel]
      simp
    · rw [if_pos (by simpa using hrel), if_neg hrel]
      unfold pyLastN
      rw [List.length_reverse, ← List.reverse_take]
  · intro raw ec hec hlib
    unfold classifyExit failureMessage
    rw [if_neg hec, if_neg (by simp [hlib])]

/-- Witness for C8 (amended) at the concrete four-error diagnostic tail. -/
theorem error_tail_amended_witness :
    classifyExit fourErrorLines 1 = Outcome.failed (errorReportLines fourErrorLines) :=
  error_tail_amended.2 fourErrorLines 1 (by decide) (by decide)

/-! ### Command builder (`FFmpegCommandBuilder`, clipper.py:176-258, and the
re-encode assembly of `run_ffmpeg_with_progress`, clipper.py:1786-1864) -/

/-- Least `k ≤ 30` with `d ∣ 10^k`, for decimal rendering. -/
def decExp (d : ℕ) : Option ℕ :=
  (List.range 31).find? fun k => decide (d ∣ 10 ^ k)

/-- Decimal rendering of a non-integral rational whose denominator divides a
power of ten (every binary-float value does); the `a/b` fallback is
unreachable for float-origin values. -/
def ratDecimal (q : ℚ) : Str :=
  match decExp q.den with
  | some k =>
    let a := q.num.natAbs * 10 ^ k / q.den
    (if q.num < 0 then ['-'] else []) ++ natDigs (a / 10 ^ k) ++
      '.' :: (List.replicate (k - (natDigs (a % 10 ^ k)).length) '0' ++
        natDigs (a % 10 ^ k))
  | none =>
    (if q.num < 0 then ['-'] else []) ++ natDigs q.num.natAbs ++
      '/' :: natDigs q.den

/-- Python `str(x)` for a number that is an `int` when integral. -/
def pyNumStr (q : ℚ) : Str :=
  if q.den = 1 then intRepr q.num else ratDecimal q

/-- Python `str(x)` for a `float` (`"4.0"`, `"0.3"`, …), idealised to exact
decimal rendering. -/
def pyFloatStr (q : ℚ) : Str :=
  if q.den = 1 then intRepr q.num ++ ['.', '0'] else ratDecimal q

/-- Python `f"{x:.2f}"` on exact rationals: round to two decimals (half-up;
Python's float formatting is half-even, but every value formatted by the
code below is exact at two decimals, where the two agree). -/
def fmt2 (q : ℚ) : Str :=
  let n : ℤ := ratFloor (q * 100 + 1 / 2)
  (if n < 0 then ['-'] else []) ++ natDigs (n.natAbs / 100) ++
    '.' :: (if n.natAbs % 100 < 10 then '0' :: natDigs (n.natAbs % 100)
            else natDigs (n.natAbs % 100))

/-- The `while remaining > 2.0` stage loop of `with_speed`
(clipper.py:224-226), fuel-indexed (any fuel reaching the exit condition
gives the loop's result; the fuel used below is proved sufficient).  Returns
the emitted stage factors and the final `remaining`. -/
def halveLoop : ℕ → ℚ → List ℚ × ℚ
  | 0, r => ([], r)
  | fuel + 1, r =>
    if 2 < r then
      let p := halveLoop fuel (r / 2)
      (2 :: p.1, p.2)
    else ([], r)

/-- The `while remaining < 0.5` stage loop of `with_speed`
(clipper.py:227-229); each stage divides by `0.5`. -/
def raiseLoop : ℕ → ℚ → List ℚ × ℚ
  | 0, r => ([], r)
  | fuel + 1, r =>
    if r < 1 / 2 then
      let p := raiseLoop fuel (r / (1 / 2))
      ((1 / 2) :: p.1, p.2)
    else ([], r)

/-- The atempo stage factors computed by `with_speed` (clipper.py:221-230):
halving stages, doubling stages, then the final remainder stage. -/
def atempoChain (speed : ℚ) : List ℚ :=
  let p1 := halveLoop speed.num.natAbs speed
  let p2 := raiseLoop p1.2.den p1.2
  p1.1 ++ p2.1 ++ [p2.2]

/-- The `-filter:a` entries appended by `with_speed` for `speed ≠ 1.0`
(clipper.py:217-231): `"atempo=2.0"` per halving stage, `"atempo=0.5"` per
doubling stage, and `f"atempo={remaining:.2f}"` for the final stage. -/
def with_speed_af (speed : ℚ) : List Str :=
  let p1 := halveLoop speed.num.natAbs speed
  let p2 := raiseLoop p1.2.den p1.2
  p1.1.map (fun _ => "atempo=2.0".toList) ++
    p2.1.map (fun _ => "atempo=0.5".toList) ++
    ["atempo=".toList ++ fmt2 p2.2]

/-- `FFmpegCommandBuilder` state (clipper.py:176-183). -/
structure Builder where
  cmd : List Str
  vfFilters : List Str
  afFilters : List Str
  hasSubtitles : Bool
  hasSpeed : Bool
  setptsFilter : Option Str

/-- `__init__` (clipper.py:177-183). -/
def Builder.init : Builder :=
  ⟨["ffmpeg".toList, "-y".toList], [], [], false, false, none⟩

def Builder.with_input (b : Builder) (path : Str) : Builder :=
  { b with cmd := b.cmd ++ ["-i".toList, path] }

/-- clipper.py:193-196 (the `duration` parameter is unused by the source). -/
def Builder.with_hybrid_trim (b : Builder) (start _duration : ℚ) : Builder :=
  { b with cmd := b.cmd ++ ["-ss".toList, pyNumStr start] }

def Builder.with_post_input_trim (b : Builder) (offset duration : ℚ) : Builder :=
  { b with cmd := b.cmd ++
      ["-ss".toList, pyNumStr offset, "-t".toList, pyNumStr duration] }

/-- clipper.py:202-210: append `scale=`/`fps=` filters, skipping `None` and
empty arguments. -/
def Builder.with_video_settings (b : Builder) (scale fps : Option Str) : Builder :=
  let fs :=
    (match scale with
     | some s => if s ≠ [] ∧ s ≠ "None".toList then ["scale=".toList ++ s] else []
     | none => []) ++
    (match fps with
     | some f => if f ≠ [] ∧ f ≠ "None".toList then ["fps=".toList ++ f] else []
     | none => [])
  { b with vfFilters := b.vfFilters ++ fs }

/-- clipper.py:212-215: insert the subtitles filter at the front of the
video filter chain. -/
def Builder.with_subtitles (b : Builder) (subPath siOpt : Str) : Builder :=
  { b with hasSubtitles := true,
           vfFilters :=
             ("subtitles=".toList ++ sq :: (subPath ++ siOpt) ++ [sq]) :: b.vfFilters }

/-- clipper.py:217-232. -/
def Builder.with_speed (b : Builder) (speed : ℚ) : Builder :=
  if speed ≠ 1 then
    { b with hasSpeed := true,
             setptsFilter := some ("setpts=PTS/".toList ++ pyFloatStr speed),
             afFilters := b.afFilters ++ with_speed_af speed }
  else b

def Builder.with_extra (b : Builder) (args : List Str) : Builder :=
  { b with cmd := b.cmd ++ args }

def Builder.with_map (b : Builder) (args : List Str) : Builder :=
  { b with cmd := b.cmd ++ args }

def Builder.with_codec (b : Builder) (codec crf preset : Str) : Builder :=
  { b with cmd := b.cmd ++
      ["-c:v".toList, codec, "-crf".toList, crf, "-preset".toList, preset] }

def Builder.with_audio (b : Builder) (codec bitrate : Str) : Builder :=
  { b with cmd := b.cmd ++ ["-c:a".toList, codec, "-b:a".toList, bitrate] }

/-- The video filter chain assembled by `build` (clipper.py:251-253): the
collected filters plus the `setpts` speed filter appended last. -/
def Builder.vfChain (b : Builder) : List Str :=
  b.vfFilters ++
    (match b.setptsFilter with
     | some f => if b.hasSpeed then [f] else []
     | none => [])

/-- `build` (clipper.py:250-258). -/
def Builder.build (b : Builder) (outputPath : Str) : List Str :=
  (b.cmd ++
      (if b.vfChain ≠ [] then
        ["-vf".toList, List.intercalate [','] b.vfChain] else []) ++
      (if b.afFilters ≠ [] then
        ["-filter:a".toList, List.intercalate [','] b.afFilters] else []))
    ++ [outputPath]

/-- Python `w, h = map(int, resolution.split(":"))` inside `try`
(clipper.py:1828-1834): exactly two integer fields, else the exception is
swallowed. -/
def parseResPair (s : Str) : Option (ℤ × ℤ) :=
  match splitOnColon s with
  | [a, b] =>
    match pyInt a, pyInt b with
    | some w, some h => some (w, h)
    | _, _ => none
  | _ => none

/-- Python `float(str)` restricted to plain decimal forms
`[sign] digits [. digits]` (exponent/`inf`/`nan` forms are not exercised by
the fps strings compared here). -/
def pyFloatQ (s : Str) : Option ℚ :=
  let core : Str → Option ℚ := fun u =>
    match dropDigits u with
    | [] => if takeDigits u = [] then none else some (digitsVal (takeDigits u))
    | '.' :: rest =>
      if dropDigits rest ≠ [] then none
      else if takeDigits u = [] ∧ takeDigits rest = [] then none
      else some ((digitsVal (takeDigits u) : ℚ) +
        (digitsVal (takeDigits rest) : ℚ) / (10 : ℚ) ^ (takeDigits rest).length)
    | _ => none
  match trimWs s with
  | '+' :: u => core u
  | '-' :: u => (core u).map fun q => -q
  | u => core u

/-- Python truthiness of an optional int (`None` and `0` are falsy). -/
def truthyInt : Option ℤ → Bool
  | none => false
  | some z => z != 0

/-- Python truthiness of an optional float. -/
def truthyQ : Option ℚ → Bool
  | none => false
  | some q => q != 0

/-- The re-encode inputs of `run_ffmpeg_with_progress` (clipper.py:1786-1864)
at the point the builder runs: probed source metadata (`None` for a failed
probe), the selected options, and the stream data captured by
`on_file_selected` (clipper.py:1176-1180).  `selectedSubtitle` is the
`map_index` of the subtitle chosen for inclusion (`none` when no subtitle is
selected); `audioIndices` lists the global indices of the audio streams
(`self.audio_indices`); `selectedAudioIndex` is the global index of the
chosen audio stream. -/
structure ReencodeConfig where
  inputPath : Str
  trimming : Bool
  startSeconds : ℚ
  endSeconds : ℚ
  selectedSubtitle : Option ℕ
  container : Str
  resolution : Str
  fps : Str
  speed : ℚ
  inputW : Option ℤ
  inputH : Option ℤ
  inputFps : Option ℚ
  audioIndices : List ℕ
  selectedAudioIndex : ℕ
  codec : Str
  crf : Str
  preset : Str
  audioBitrate : Str
  subPath : Str

/-- clipper.py:1826-1834: `scale_needed` stays `True` unless the probed
dimensions are truthy, the resolution string nonempty, it parses as two
integer fields, and both equal the probed dimensions. -/
def scale_needed (c : ReencodeConfig) : Bool :=
  if truthyInt c.inputW && truthyInt c.inputH && !c.resolution.isEmpty then
    match parseResPair c.resolution with
    | some (w, h) => !(decide (c.inputW = some w) && decide (c.inputH = some h))
    | none => true
  else true

/-- clipper.py:1835-1840: `fps_needed` stays `True` unless the probed fps is
truthy, the fps string nonempty and float-parsable, and the two are equal. -/
def fps_needed (c : ReencodeConfig) : Bool :=
  if truthyQ c.inputFps && !c.fps.isEmpty then
    match pyFloatQ c.fps with
    | some f => !(decide (c.inputFps = some f))
    | none => true
  else true

/-- clipper.py:1848-1855: `-map 0:v` always; with audio streams present, the
selected stream is mapped as `0:a:{audio_indices.index(selected)}` — its
0-based position within the audio group — defaulting to position 0 when the
selected index is absent from the list. -/
def audioMapArgs (audioIndices : List ℕ) (selected : ℕ) : List Str :=
  let base := ["-map".toList, "0:v".toList]
  if audioIndices.isEmpty then base
  else
    let audioIdx :=
      if selected ∈ audioIndices then audioIndices.indexOf selected else 0
    base ++ ["-map".toList, "0:a:".toList ++ natDigs audioIdx]

/-- The builder-call sequence of the re-encode path of
`run_ffmpeg_with_progress` (clipper.py:1797-1863). -/
def assemble (c : ReencodeConfig) : Builder :=
  let b1 :=
    if c.trimming then
      ((Builder.init.with_hybrid_trim c.startSeconds
            (c.endSeconds - c.startSeconds)).with_input
          c.inputPath).with_post_input_trim 0 (c.endSeconds - c.startSeconds)
    else Builder.init.with_input c.inputPath
  let b2 :=
    match c.selectedSubtitle with
    | some si =>
      if c.container = "mp4".toList ∨ c.container = "webm".toList then
        (((b1.with_subtitles c.subPath
                (":si=".toList ++ natDigs si)).with_video_settings
              (some c.resolution) (some c.fps)).with_speed c.speed).with_extra
          ["-sn".toList]
      else if c.container = "mkv".toList then
        ((b1.with_video_settings (some c.resolution)
              (some c.fps)).with_speed c.speed).with_extra
          ["-map".toList, "0:s:".toList ++ natDigs si, "-c:s".toList,
            "copy".toList]
      else b1
    | none =>
      let bv :=
        if scale_needed c || fps_needed c then
          b1.with_video_settings
            (if scale_needed c then some c.resolution else none)
            (if fps_needed c then some c.fps else none)
        else b1
      (bv.with_speed c.speed).with_extra ["-sn".toList]
  let b3 := (b2.with_map (audioMapArgs c.audioIndices c.selectedAudioIndex)).with_codec
    c.codec c.crf c.preset
  if c.audioBitrate = "Remove Audio".toList then b3.with_extra ["-an".toList]
  else b3.with_audio
    (if c.codec = "libvpx-vp9".toList then "libopus".toList else "aac".toList)
    c.audioBitrate

/-- The full argument vector for a re-encode job. -/
def run_build (c : ReencodeConfig) (outputPath : Str) : List Str :=
  (assemble c).build outputPath

/-- The video filter chain of a re-encode job. -/
def reencodeVfChain (c : ReencodeConfig) : List Str :=
  (assemble c).vfChain

theorem halveLoop_prod : ∀ (f : ℕ) (r : ℚ),
    (halveLoop f r).1.prod * (halveLoop f r).2 = r := by
  intro f
  induction f with
  | zero => intro r; simp [halveLoop]
  | succ f ih =>
    intro r
    by_cases h : 2 < r
    · simp only [halveLoop, if_pos h]
      rw [List.prod_cons, mul_assoc, ih (r / 2)]
      ring
    · simp [halveLoop, h]

theorem halveLoop_stages : ∀ (f : ℕ) (r : ℚ), ∀ x ∈ (halveLoop f r).1, x = 2 := by
  intro f
  induction f with
  | zero => intro r x hx; simp [halveLoop] at hx
  | succ f ih =>
    intro r x hx
    by_cases h : 2 < r
    · simp only [halveLoop, if_pos h] at hx
      rcases List.mem_cons.1 hx with rfl | hmem
      · rfl
      · exact ih (r / 2) x hmem
    · simp [halveLoop, h] at hx

theorem halveLoop_le : ∀ (f : ℕ) (r : ℚ), r ≤ 2 * 2 ^ f →
    (halveLoop f r).2 ≤ 2 := by
  intro f
  induction f with
  | zero => intro r h; simpa [halveLoop] using h
  | succ f ih =>
    intro r h
    by_cases h2 : 2 < r
    · simp only [halveLoop, if_pos h2]
      apply ih
      rw [div_le_iff₀ (by norm_num : (0:ℚ) < 2)]
      calc r ≤ 2 * 2 ^ (f + 1) := h
        _ = 2 * 2 ^ f * 2 := by ring
    · simpa [halveLoop, h2] using le_of_not_lt h2

theorem halveLoop_pos : ∀ (f : ℕ) (r : ℚ), 0 < r → 0 < (halveLoop f r).2 := by
  intro f
  induction f with
  | zero => intro r h; simpa [halveLoop] using h
  | succ f ih =>
    intro r h
    by_cases h2 : 2 < r
    · simp only [halveLoop, if_pos h2]
      exact ih (r / 2) (by positivity)
    · simpa [halveLoop, h2] using h

theorem raiseLoop_prod : ∀ (f : ℕ) (r : ℚ),
    (raiseLoop f r).1.prod * (raiseLoop f r).2 = r := by
  intro f
  induction f with
  | zero => intro r; simp [raiseLoop]
  | succ f ih =>
    intro r
    by_cases h : r < 1 / 2
    · simp only [raiseLoop, if_pos h]
      rw [List.prod_cons, mul_assoc, ih (r / (1 / 2))]
      ring
    · rw [raiseLoop, if_neg h]
      simp

theorem raiseLoop_stages : ∀ (f : ℕ) (r : ℚ),
    ∀ x ∈ (raiseLoop f r).1, x = 1 / 2 := by
  intro f
  induction f with
  | zero => intro r x hx; simp [raiseLoop] at hx
  | succ f ih =>
    intro r x hx
    by_cases h : r < 1 / 2
    · simp only [raiseLoop, if_pos h] at hx
      rcases List.mem_cons.1 hx with rfl | hmem
      · rfl
      · exact ih (r / (1 / 2)) x hmem
    · rw [raiseLoop, if_neg h] at hx
      simp at hx

theorem raiseLoop_ge : ∀ (f : ℕ) (r : ℚ), 1 / 2 ≤ r * 2 ^ f →
    1 / 2 ≤ (raiseLoop f r).2 := by
  intro f
  induction f with
  | zero => intro r h; simpa [raiseLoop] using h
  | succ f ih =>
    intro r h
    by_cases h2 : r < 1 / 2
    · simp only [raiseLoop, if_pos h2]
      apply ih
      calc (1:ℚ) / 2 ≤ r * 2 ^ (f + 1) := h
        _ = r / (1 / 2) * 2 ^ f := by ring
    · rw [raiseLoop, if_neg h2]
      exact le_of_not_lt h2

theorem raiseLoop_le : ∀ (f : ℕ) (r : ℚ), r ≤ 2 → (raiseLoop f r).2 ≤ 2 := by
  intro f
  induction f with
  | zero => intro r h; simpa [raiseLoop] using h
  | succ f ih =>
    intro r h
    by_cases h2 : r < 1 / 2
    · simp only [raiseLoop, if_pos h2]
      apply ih
      rw [div_le_iff₀ (by norm_num : (0:ℚ) < 1 / 2)]
      nlinarith
    · rw [raiseLoop, if_neg h2]
      exact h

theorem rat_le_two_mul_two_pow_natAbs {q : ℚ} (hq : 0 < q) :
    q ≤ 2 * 2 ^ q.num.natAbs := by
  have hn : (0:ℤ) < q.num := Rat.num_pos.2 hq
  have hden : (1:ℚ) ≤ (q.den : ℚ) := by
    exact_mod_cast Nat.one_le_iff_ne_zero.2 q.den_nz
  have h1 : q ≤ (q.num : ℚ) := by
    conv_lhs => rw [← Rat.num_div_den q]
    exact div_le_self (by positivity) hden
  have h2 : (q.num : ℚ) = (q.num.natAbs : ℚ) := by
    rw [Int.cast_natAbs, abs_of_nonneg (by exact_mod_cast hn.le)]
  have h3 : (q.num.natAbs : ℚ) ≤ 2 ^ q.num.natAbs := by
    exact_mod_cast (Nat.lt_two_pow q.num.natAbs).le
  have h4 : (0:ℚ) < 2 ^ q.num.natAbs := by positivity
  calc q ≤ (q.num.natAbs : ℚ) := h2 ▸ h1
    _ ≤ 2 ^ q.num.natAbs := h3
    _ ≤ 2 * 2 ^ q.num.natAbs := by linarith

theorem half_le_mul_two_pow_den {q : ℚ} (hq : 0 < q) :
    1 / 2 ≤ q * 2 ^ q.den := by
  have hd : (0:ℚ) < (q.den : ℚ) := by
    exact_mod_cast Nat.pos_of_ne_zero q.den_nz
  have h1 : 1 / (q.den : ℚ) ≤ q := by
    conv_rhs => rw [← Rat.num_div_den q]
    have hn : (1:ℚ) ≤ (q.num : ℚ) := by exact_mod_cast Rat.num_pos.2 hq
    gcongr
  have h2 : (q.den : ℚ) ≤ 2 ^ q.den := by
    exact_mod_cast (Nat.lt_two_pow q.den).le
  calc (1:ℚ) / 2 ≤ 1 := by norm_num
    _ ≤ 2 ^ q.den / (q.den : ℚ) := (one_le_div hd).2 h2
    _ = 1 / (q.den : ℚ) * 2 ^ q.den := by ring
    _ ≤ q * 2 ^ q.den := by
        exact mul_le_mul_of_nonneg_right h1 (by positivity)

/-- **C2** — For every positive target speed (in particular every one
outside 0.5–2.0), `with_speed` emits a chain of audio tempo stage factors
each within `[0.5, 2.0]` whose product equals the target speed, with the
final stage carrying the remainder factor after the fixed 2.0×/0.5× stages;
speed 4.0 yields exactly two 2.0-factor stages (`atempo=2.0`,
`atempo=2.00`), and speed 0.3 yields one 0.5-factor stage followed by one
stage of factor 0.6 (`atempo=0.5`, `atempo=0.60`). -/
theorem with_speed_decomposition :
    (∀ speed : ℚ, 0 < speed →
      (∀ f ∈ atempoChain speed, 1 / 2 ≤ f ∧ f ≤ 2) ∧
      (atempoChain speed).prod = speed ∧
      (∃ stages r, atempoChain speed = stages ++ [r] ∧
        ∀ f ∈ stages, f = 2 ∨ f = 1 / 2))
  ∧ atempoChain 4 = [2, 2]
  ∧ with_speed_af 4 = ["atempo=2.0".toList, "atempo=2.00".toList]
  ∧ atempoChain (3 / 10) = [1 / 2, 3 / 5]
  ∧ with_speed_af (3 / 10) = ["atempo=0.5".toList, "atempo=0.60".toList] := by
  refine ⟨?_, by decide, by decide, by decide, by decide⟩
  intro speed hpos
  have hx_pos : 0 < (halveLoop speed.num.natAbs speed).2 :=
    halveLoop_pos _ _ hpos
  have hx_le : (halveLoop speed.num.natAbs speed).2 ≤ 2 :=
    halveLoop_le _ _ (rat_le_two_mul_two_pow_natAbs hpos)
  have hfin_ge : 1 / 2 ≤
      (raiseLoop (halveLoop speed.num.natAbs speed).2.den
        (halveLoop speed.num.natAbs speed).2).2 :=
    raiseLoop_ge _ _ (half_le_mul_two_pow_den hx_pos)
  have hfin_le :
      (raiseLoop (halveLoop speed.num.natAbs speed).2.den
        (halveLoop speed.num.natAbs speed).2).2 ≤ 2 :=
    raiseLoop_le _ _ hx_le
  refine ⟨?_, ?_, ?_⟩
  · intro f hf
    unfold atempoChain at hf
    rcases List.mem_append.1 hf with hf1 | hf2
    · rcases List.mem_append.1 hf1 with hh | hr
      · rw [halveLoop_stages _ _ f hh]
        norm_num
      · rw [raiseLoop_stages _ _ f hr]
        norm_num
    · simp only [List.mem_singleton] at hf2
      subst hf2
      exact ⟨hfin_ge, hfin_le⟩
  · unfold atempoChain
    rw [List.prod_append, List.prod_append, List.prod_singleton, mul_assoc,
      raiseLoop_prod, halveLoop_prod]
  · refine ⟨(halveLoop speed.num.natAbs speed).1 ++
      (raiseLoop (halveLoop speed.num.natAbs speed).2.den
        (halveLoop speed.num.natAbs speed).2).1, _, by
        unfold atempoChain; rw [List.append_assoc], ?_⟩
    intro f hf
    rcases List.mem_append.1 hf with hh | hr
    · exact Or.inl (halveLoop_stages _ _ f hh)
    · exact Or.inr (raiseLoop_stages _ _ f hr)

/-- Witness for C2 at the concrete speed 4.0. -/
theorem with_speed_decomposition_witness :
    (atempoChain 4).prod = 4 ∧
      with_speed_af 4 = ["atempo=2.0".toList, "atempo=2.00".toList] :=
  ⟨(with_speed_decomposition.1 4 (by norm_num)).2.1,
    with_speed_decomposition.2.2.1⟩

theorem not_prefix_mismatch1 {a b : Char} (h : a ≠ b) (l m : Str) :
    ¬((a :: l) <+: (b :: m)) :=
  fun hp => h (List.cons_prefix_cons.mp hp).1

theorem not_prefix_mismatch2 {a b c : Char} (h : b ≠ c) (l m : Str) :
    ¬((a :: b :: l) <+: (a :: c :: m)) :=
  fun hp => h (List.cons_prefix_cons.mp (List.cons_prefix_cons.mp hp).2).1

theorem scale_not_prefix_fps (x : Str) :
    ¬("scale=".toList <+: "fps=".toList ++ x) := by
  show ¬(('s' :: 'c' :: "ale=".toList) <+: ('f' :: 'p' :: ("s=".toList ++ x)))
  exact not_prefix_mismatch1 (by decide) _ _

theorem scale_not_prefix_setpts (x : Str) :
    ¬("scale=".toList <+: "setpts=PTS/".toList ++ x) := by
  show ¬(('s' :: 'c' :: "ale=".toList) <+: ('s' :: 'e' :: ("tpts=PTS/".toList ++ x)))
  exact not_prefix_mismatch2 (by decide) _ _

theorem fps_not_prefix_scale (x : Str) :
    ¬("fps=".toList <+: "scale=".toList ++ x) := by
  show ¬(('f' :: "ps=".toList) <+: ('s' :: ("cale=".toList ++ x)))
  exact not_prefix_mismatch1 (by decide) _ _

theorem fps_not_prefix_setpts (x : Str) :
    ¬("fps=".toList <+: "setpts=PTS/".toList ++ x) := by
  show ¬(('f' :: "ps=".toList) <+: ('s' :: ("etpts=PTS/".toList ++ x)))
  exact not_prefix_mismatch1 (by decide) _ _

/-! Projection lemmas: the command-only builder operations do not touch the
filter state, and `with_video_settings`/`with_speed` modify it as shown. -/

@[simp] theorem with_input_vf (b : Builder) (p : Str) :
    (b.with_input p).vfFilters = b.vfFilters := rfl
@[simp] theorem with_input_hs (b : Builder) (p : Str) :
    (b.with_input p).hasSpeed = b.hasSpeed := rfl
@[simp] theorem with_input_sp (b : Builder) (p : Str) :
    (b.with_input p).setptsFilter = b.setptsFilter := rfl
@[simp] theorem with_hybrid_trim_vf (b : Builder) (s d : ℚ) :
    (b.with_hybrid_trim s d).vfFilters = b.vfFilters := rfl
@[simp] theorem with_hybrid_trim_hs (b : Builder) (s d : ℚ) :
    (b.with_hybrid_trim s d).hasSpeed = b.hasSpeed := rfl
@[simp] theorem with_hybrid_trim_sp (b : Builder) (s d : ℚ) :
    (b.with_hybrid_trim s d).setptsFilter = b.setptsFilter := rfl
@[simp] theorem with_post_input_trim_vf (b : Builder) (s d : ℚ) :
    (b.with_post_input_trim s d).vfFilters = b.vfFilters := rfl
@[simp] theorem with_post_input_trim_hs (b : Builder) (s d : ℚ) :
    (b.with_post_input_trim s d).hasSpeed = b.hasSpeed := rfl
@[simp] theorem with_post_input_trim_sp (b : Builder) (s d : ℚ) :
    (b.with_post_input_trim s d).setptsFilter = b.setptsFilter := rfl
@[simp] theorem with_extra_vf (b : Builder) (a : List Str) :
    (b.with_extra a).vfFilters = b.vfFilters := rfl
@[simp] theorem with_extra_hs (b : Builder) (a : List Str) :
    (b.with_extra a).hasSpeed = b.hasSpeed := rfl
@[simp] theorem with_extra_sp (b : Builder) (a : List Str) :
    (b.with_extra a).setptsFilter = b.setptsFilter := rfl
@[simp] theorem with_map_vf (b : Builder) (a : List Str) :
    (b.with_map a).vfFilters = b.vfFilters := rfl
@[simp] theorem with_map_hs (b : Builder) (a : List Str) :
    (b.with_map a).hasSpeed = b.hasSpeed := rfl
@[simp] theorem with_map_sp (b : Builder) (a : List Str) :
    (b.with_map a).setptsFilter = b.setptsFilter := rfl
@[simp] theorem with_codec_vf (b : Builder) (x y z : Str) :
    (b.with_codec x y z).vfFilters = b.vfFilters := rfl
@[simp] theorem with_codec_hs (b : Builder) (x y z : Str) :
    (b.with_codec x y z).hasSpeed = b.hasSpeed := rfl
@[simp] theorem with_codec_sp (b : Builder) (x y z : Str) :
    (b.with_codec x y z).setptsFilter = b.setptsFilter := rfl
@[simp] theorem with_audio_vf (b : Builder) (x y : Str) :
    (b.with_audio x y).vfFilters = b.vfFilters := rfl
@[simp] theorem with_audio_hs (b : Builder) (x y : Str) :
    (b.with_audio x y).hasSpeed = b.hasSpeed := rfl
@[simp] theorem with_audio_sp (b : Builder) (x y : Str) :
    (b.with_audio x y).setptsFilter = b.setptsFilter := rfl

@[simp] theorem with_video_settings_vf (b : Builder) (scale fps : Option Str) :
    (b.with_video_settings scale fps).vfFilters =
      b.vfFilters ++
        ((match scale with
          | some s => if s ≠ [] ∧ s ≠ "None".toList
                      then ["scale=".toList ++ s] else []
          | none => []) ++
         (match fps with
          | some f => if f ≠ [] ∧ f ≠ "None".toList
                      then ["fps=".toList ++ f] else []
          | none => [])) := rfl
@[simp] theorem with_video_settings_hs (b : Builder) (scale fps : Option Str) :
    (b.with_video_settings scale fps).hasSpeed = b.hasSpeed := rfl
@[simp] theorem with_video_settings_sp (b : Builder) (scale fps : Option Str) :
    (b.with_video_settings scale fps).setptsFilter = b.setptsFilter := rfl

@[simp] theorem with_speed_vf (b : Builder) (sp : ℚ) :
    (b.with_speed sp).vfFilters = b.vfFilters := by
  unfold Builder.with_speed
  split_ifs <;> rfl
@[simp] theorem with_speed_hs (b : Builder) (sp : ℚ) :
    (b.with_speed sp).hasSpeed = if sp ≠ 1 then true else b.hasSpeed := by
  unfold Builder.with_speed
  split_ifs <;> rfl
@[simp] theorem with_speed_sp (b : Builder) (sp : ℚ) :
    (b.with_speed sp).setptsFilter =
      if sp ≠ 1 then some ("setpts=PTS/".toList ++ pyFloatStr sp)
      else b.setptsFilter := by
  unfold Builder.with_speed
  split_ifs <;> rfl

@[simp] theorem ite_builder_vf (P : Prop) [Decidable P] (a b : Builder) :
    (if P then a else b).vfFilters = if P then a.vfFilters else b.vfFilters := by
  split_ifs <;> rfl
@[simp] theorem ite_builder_hs (P : Prop) [Decidable P] (a b : Builder) :
    (if P then a else b).hasSpeed = if P then a.hasSpeed else b.hasSpeed := by
  split_ifs <;> rfl
@[simp] theorem ite_builder_sp (P : Prop) [Decidable P] (a b : Builder) :
    (if P then a else b).setptsFilter =
      if P then a.setptsFilter else b.setptsFilter := by
  split_ifs <;> rfl

/-- With no subtitle selected, the video filter chain is exactly the elided
scale/fps filters followed by the optional `setpts` speed filter
(clipper.py:1825-1847 and `build`, clipper.py:250-255). -/
theorem vfChain_no_subtitle (c : ReencodeConfig) (h : c.selectedSubtitle = none) :
    reencodeVfChain c =
      (if scale_needed c = true ∧ c.resolution ≠ [] ∧ c.resolution ≠ "None".toList
        then ["scale=".toList ++ c.resolution] else []) ++
      (if fps_needed c = true ∧ c.fps ≠ [] ∧ c.fps ≠ "None".toList
        then ["fps=".toList ++ c.fps] else []) ++
      (if c.speed ≠ 1 then ["setpts=PTS/".toList ++ pyFloatStr c.speed] else []) := by
  unfold reencodeVfChain assemble Builder.vfChain
  rw [h]
  cases hs : scale_needed c <;> cases hf : fps_needed c <;>
    by_cases hr : c.resolution ≠ [] ∧ c.resolution ≠ "None".toList <;>
      by_cases hfz : c.fps ≠ [] ∧ c.fps ≠ "None".toList <;>
        by_cases hsp : c.speed = 1 <;>
          simp only [hs, hf, hr, hfz, hsp, Builder.init,
            ite_builder_vf, ite_builder_hs, ite_builder_sp,
            with_input_vf, with_input_hs, with_input_sp,
            with_hybrid_trim_vf, with_hybrid_trim_hs, with_hybrid_trim_sp,
            with_post_input_trim_vf, with_post_input_trim_hs,
            with_post_input_trim_sp,
            with_extra_vf, with_extra_hs, with_extra_sp,
            with_map_vf, with_map_hs, with_map_sp,
            with_codec_vf, with_codec_hs, with_codec_sp,
            with_audio_vf, with_audio_hs, with_audio_sp,
            with_video_settings_vf, with_video_settings_hs,
            with_video_settings_sp,
            with_speed_vf, with_speed_hs, with_speed_sp,
            Bool.or_self, Bool.or_true, Bool.true_or, Bool.false_or,
            Bool.or_false, Bool.false_eq_true, Bool.true_eq_false,
            eq_self_iff_true, if_true, if_false, ite_true, ite_false, ite_self,
            not_true, not_false_iff, and_true, true_and, and_false, false_and,
            List.nil_append, List.append_nil, List.append_assoc] <;>
          simp [hsp]

theorem scale_mem_iff (c : ReencodeConfig) (hsub : c.selectedSubtitle = none)
    (hres1 : c.resolution ≠ []) (hres2 : c.resolution ≠ "None".toList) :
    (∃ f ∈ reencodeVfChain c, "scale=".toList <+: f) ↔ scale_needed c = true := by
  rw [vfChain_no_subtitle c hsub]
  constructor
  · rintro ⟨f, hf, hp⟩
    rcases List.mem_append.1 hf with hf1 | hfC
    · rcases List.mem_append.1 hf1 with hfA | hfB
      · by_cases hs : scale_needed c = true
        · exact hs
        · simp [hs] at hfA
      · by_cases hb : fps_needed c = true ∧ c.fps ≠ [] ∧ c.fps ≠ "None".toList
        · rw [if_pos hb] at hfB
          rw [List.mem_singleton.1 hfB] at hp
          exact absurd hp (scale_not_prefix_fps _)
        · rw [if_neg hb] at hfB
          exact absurd hfB (List.not_mem_nil f)
    · by_cases hc : c.speed ≠ 1
      · rw [if_pos hc] at hfC
        rw [List.mem_singleton.1 hfC] at hp
        exact absurd hp (scale_not_prefix_setpts _)
      · rw [if_neg hc] at hfC
        exact absurd hfC (List.not_mem_nil f)
  · intro hs
    refine ⟨"scale=".toList ++ c.resolution, ?_, List.prefix_append _ _⟩
    exact List.mem_append.2 (Or.inl (List.mem_append.2 (Or.inl (by
      rw [if_pos ⟨hs, hres1, hres2⟩]; exact List.mem_singleton.2 rfl))))

theorem fps_mem_iff (c : ReencodeConfig) (hsub : c.selectedSubtitle = none)
    (hfps1 : c.fps ≠ []) (hfps2 : c.fps ≠ "None".toList) :
    (∃ f ∈ reencodeVfChain c, "fps=".toList <+: f) ↔ fps_needed c = true := by
  rw [vfChain_no_subtitle c hsub]
  constructor
  · rintro ⟨f, hf, hp⟩
    rcases List.mem_append.1 hf with hf1 | hfC
    · rcases List.mem_append.1 hf1 with hfA | hfB
      · by_cases ha : scale_needed c = true ∧ c.resolution ≠ [] ∧
            c.resolution ≠ "None".toList
        · rw [if_pos ha] at hfA
          rw [List.mem_singleton.1 hfA] at hp
          exact absurd hp (fps_not_prefix_scale _)
        · rw [if_neg ha] at hfA
          exact absurd hfA (List.not_mem_nil f)
      · by_cases hb : fps_needed c = true
        · exact hb
        · simp [hb] at hfB
    · by_cases hc : c.speed ≠ 1
      · rw [if_pos hc] at hfC
        rw [List.mem_singleton.1 hfC] at hp
        exact absurd hp (fps_not_prefix_setpts _)
      · rw [if_neg hc] at hfC
        exact absurd hfC (List.not_mem_nil f)
  · intro hs
    refine ⟨"fps=".toList ++ c.fps, ?_, List.prefix_append _ _⟩
    exact List.mem_append.2 (Or.inl (List.mem_append.2 (Or.inr (by
      rw [if_pos ⟨hs, hfps1, hfps2⟩]; exact List.mem_singleton.2 rfl))))

theorem scale_needed_iff (c : ReencodeConfig) {w h wT hT : ℤ}
    (hW : c.inputW = some w) (hw0 : w ≠ 0)
    (hH : c.inputH = some h) (hh0 : h ≠ 0)
    (hres : c.resolution ≠ [])
    (hpr : parseResPair c.resolution = some (wT, hT)) :
    (scale_needed c = true ↔ (wT, hT) ≠ (w, h)) := by
  unfold scale_needed
  rw [hW, hH, hpr]
  have hre : c.resolution.isEmpty = false := by
    cases hc : c.resolution
    · exact absurd hc hres
    · rfl
  rw [hre]
  have hcond : (truthyInt (some w) && truthyInt (some h) && !false) = true := by
    simp [truthyInt, hw0, hh0]
  rw [if_pos hcond]
  simp only [Option.some.injEq, Bool.not_eq_true', Bool.and_eq_false_iff,
    decide_eq_false_iff_not, ne_eq, Prod.mk.injEq, not_and]
  omega

theorem fps_needed_iff (c : ReencodeConfig) {qf tf : ℚ}
    (hF : c.inputFps = some qf) (hqf : qf ≠ 0)
    (hfps : c.fps ≠ [])
    (hpf : pyFloatQ c.fps = some tf) :
    (fps_needed c = true ↔ tf ≠ qf) := by
  unfold fps_needed
  rw [hF, hpf]
  have hfe : c.fps.isEmpty = false := by
    cases hc : c.fps
    · exact absurd hc hfps
    · rfl
  rw [hfe]
  have hcond : (truthyQ (some qf) && !false) = true := by
    simp [truthyQ, hqf]
  rw [if_pos hcond]
  simp only [Option.some.injEq, Bool.not_eq_true', decide_eq_false_iff_not, ne_eq]
  exact ⟨fun h1 h2 => h1 h2.symm, fun h1 h2 => h1 h2.symm⟩

/-- The no-op configuration of the claim: no subtitle selected, probed
source 1920×1080 at 30 fps, target resolution `1920:1080`, target fps `30`,
normal speed. -/
def noopCfg : ReencodeConfig :=
  { inputPath := "v.mp4".toList, trimming := false, startSeconds := 0,
    endSeconds := 0, selectedSubtitle := none, container := "mp4".toList,
    resolution := "1920:1080".toList, fps := "30".toList, speed := 1,
    inputW := some 1920, inputH := some 1080, inputFps := some 30,
    audioIndices := [1], selectedAudioIndex := 1, codec := "libx264".toList,
    crf := "20".toList, preset := "medium".toList,
    audioBitrate := "128k".toList, subPath := "v.mp4".toList }

/-- The same source and targets, but with a subtitle track selected for
burn-in into an mp4 container. -/
def burninCfg : ReencodeConfig :=
  { noopCfg with selectedSubtitle := some 0 }

/-- **C3 counterexample** — in a burn-in build (`selectedSubtitle = some 0`,
mp4 container) with target resolution and fps equal to the probed source
(1920×1080 at 30), the built filter chain still contains both
`scale=1920:1080` and `fps=30`: the subtitle branch of
clipper.py:1806-1813 calls `with_video_settings(resolution, fps)`
unconditionally, so the claimed elision does not hold for subtitle
builds. -/
theorem subtitle_scale_fps_cex :
    burninCfg.inputW = some 1920 ∧ burninCfg.inputH = some 1080 ∧
      burninCfg.inputFps = some 30 ∧
      parseResPair burninCfg.resolution = some (1920, 1080) ∧
      pyFloatQ burninCfg.fps = some 30 ∧
      "scale=1920:1080".toList ∈ reencodeVfChain burninCfg ∧
      "fps=30".toList ∈ reencodeVfChain burninCfg := by decide

/-- **C3 (amended)** — For re-encode builds *without* subtitle burn-in, the
argument vector contains a `scale=` filter iff the parsed target resolution
differs from the (known, truthy) probed source resolution, and an `fps=`
filter iff the parsed target fps differs from the probed source fps; in
particular with source fps 30, target fps `"30"` and equal resolutions,
neither filter appears (and no `-vf` argument is emitted at all).  When a
subtitle track is selected, both filters are emitted unconditionally (see
the counterexample). -/
theorem scale_fps_elision :
    (∀ (c : ReencodeConfig) (w h wT hT : ℤ) (qf tf : ℚ),
      c.selectedSubtitle = none →
      c.inputW = some w → w ≠ 0 → c.inputH = some h → h ≠ 0 →
      c.inputFps = some qf → qf ≠ 0 →
      parseResPair c.resolution = some (wT, hT) →
      pyFloatQ c.fps = some tf →
      c.resolution ≠ [] → c.resolution ≠ "None".toList →
      c.fps ≠ [] → c.fps ≠ "None".toList →
      (((∃ f ∈ reencodeVfChain c, "scale=".toList <+: f) ↔ (wT, hT) ≠ (w, h)) ∧
        ((∃ f ∈ reencodeVfChain c, "fps=".toList <+: f) ↔ tf ≠ qf)))
  ∧ reencodeVfChain noopCfg = []
  ∧ "-vf".toList ∉ run_build noopCfg ("out.mp4".toList) := by
  refine ⟨?_, by decide, by decide⟩
  intro c w h wT hT qf tf hsub hW hw0 hH hh0 hF hqf hpr hpf hr1 hr2 hf1 hf2
  constructor
  · exact (scale_mem_iff c hsub hr1 hr2).trans
      (scale_needed_iff c hW hw0 hH hh0 hr1 hpr)
  · exact (fps_mem_iff c hsub hf1 hf2).trans
      (fps_needed_iff c hF hqf hf1 hpf)

/-- A configuration whose audio streams sit at global indices `[1,3,5]` with
the stream at global index 5 selected, and whose targets differ from the
probed source. -/
def c4Cfg : ReencodeConfig :=
  { inputPath := "v.mkv".toList, trimming := false, startSeconds := 0,
    endSeconds := 0, selectedSubtitle := none, container := "mkv".toList,
    resolution := "1280:720".toList, fps := "60".toList, speed := 1,
    inputW := some 1920, inputH := some 1080, inputFps := some 30,
    audioIndices := [1, 3, 5], selectedAudioIndex := 5,
    codec := "libx264".toList, crf := "23".toList, preset := "fast".toList,
    audioBitrate := "192k".toList, subPath := "v.mkv".toList }

/-- Witness for C3 (amended) at `c4Cfg` (target 1280×720@60 differs from the
probed 1920×1080@30, so both filters must appear). -/
theorem scale_fps_elision_witness :
    ((∃ f ∈ reencodeVfChain c4Cfg, "scale=".toList <+: f) ↔
        (((1280 : ℤ), (720 : ℤ)) ≠ ((1920 : ℤ), (1080 : ℤ)))) ∧
      ((∃ f ∈ reencodeVfChain c4Cfg, "fps=".toList <+: f) ↔ (60 : ℚ) ≠ (30 : ℚ)) :=
  scale_fps_elision.1 c4Cfg 1920 1080 1280 720 30 60 rfl rfl (by decide) rfl
    (by decide) rfl (by decide) (by decide) (by decide) (by decide) (by decide)
    (by decide) (by decide)

/-- **C4** — The built command maps the selected audio stream by its 0-based
position within the audio-stream group (`audio_indices.index(selected)`),
not by its global stream index; selecting the head stream (the default)
maps position 0; with audio streams at global indices `[1,3,5]`, selecting
global index 5 maps `0:a:2`, and that selector appears in the full built
command. -/
theorem audio_map_by_position :
    (∀ (idxs : List ℕ) (sel : ℕ), sel ∈ idxs →
      audioMapArgs idxs sel =
          ["-map".toList, "0:v".toList, "-map".toList,
            "0:a:".toList ++ natDigs (idxs.indexOf sel)] ∧
        ∃ hlt : idxs.indexOf sel < idxs.length,
          idxs.get ⟨idxs.indexOf sel, hlt⟩ = sel)
  ∧ (∀ (i : ℕ) (rest : List ℕ),
      audioMapArgs (i :: rest) i =
        ["-map".toList, "0:v".toList, "-map".toList, "0:a:".toList ++ natDigs 0])
  ∧ audioMapArgs [1, 3, 5] 5 =
      ["-map".toList, "0:v".toList, "-map".toList, "0:a:2".toList]
  ∧ ["-map".toList, "0:a:2".toList] <:+: run_build c4Cfg ("out.mkv".toList) := by
  refine ⟨?_, ?_, by decide, by decide⟩
  · intro idxs sel hmem
    have hne : idxs.isEmpty = false := by
      cases idxs
      · simp at hmem
      · rfl
    unfold audioMapArgs
    rw [if_neg (by simp [hne]), if_pos hmem]
    exact ⟨rfl, List.indexOf_lt_length.2 hmem, List.indexOf_get _⟩
  · intro i rest
    unfold audioMapArgs
    rw [if_neg (by simp), if_pos (List.mem_cons_self ..), List.indexOf_cons_self]
    rfl

/-- Witness for C4 at the concrete stream list `[1,3,5]`, selected global
index 5. -/
theorem audio_map_by_position_witness :
    audioMapArgs [1, 3, 5] 5 =
      ["-map".toList, "0:v".toList, "-map".toList,
        "0:a:".toList ++ natDigs (([1, 3, 5] : List ℕ).indexOf 5)] :=
  (audio_map_by_position.1 [1, 3, 5] 5 (by decide)).1

example : time_to_seconds ("1:30".toList) = 90 := by decide
example : time_to_seconds ("1:60".toList) = 0 := by decide
example : time_to_seconds ("-1:00".toList) = 0 := by decide
example : time_to_seconds ("0:-5".toList) = -5 := by decide
example : time_to_seconds ("90:00".toList) = 5400 := by decide
example : time_to_seconds ("1:30:00".toList) = 5400 := by decide
example : time_to_seconds ("1:2:3:4".toList) = 0 := by decide
example : validate_time_format ("0:-5".toList) = true := by decide
example : validate_time_format ("1:60".toList) = false := by decide
example : validate_time_format ("".toList) = true := by decide
example : validate_time_format ("  ".toList) = true := by decide
example : seconds_to_time 90 = "1:30".toList := by decide
example : seconds_to_time 5400 = "90:00".toList := by decide
example : mssStr 1 30 = "1:30".toList := by decide

end

end Clipper
